import Mathlib

/-!
Verification of the Slack-driven coding-agent dispatcher (`app.py`).

The development shallowly embeds the parts of the program that the stated
properties are about:

* thread-id sanitization and the janitor's reconstruction of thread ids from
  directory names (`sanitize_thread_ts`, `desanitize_entry`);
* the worktree manager (`ensure_worktree`, `remove_worktree`, the stale sweep
  decision of `cleanup_stale_worktrees`, and `setup_branch`);
* the per-thread registry `thread_sessions` and the registry update performed
  after an agent run in `run_claude`;
* the admission-control state (`claude_process_count`, `active_threads`) as a
  labelled transition system whose atomic steps are exactly the lock-protected
  sections of `slack_events` and `run_claude`.

Python strings are modelled as `List Char`; `str.replace` with one-character
arguments is a character map (all occurrences) or a first-occurrence rewrite.
External subprocess invocations (`git ...`, the agent CLI) are modelled by
their captured results (`GitResult`), passed in as parameters, and every
modelled operation also returns the trace of mutating git invocations it made
(`GitOp`), so that "no second filesystem mutation" style properties can be
stated about the trace.
-/

/-- Thread identifier (a Slack `thread_ts`), modelled as its character list. -/
abbrev ThreadTs := List Char

/-- Filesystem path, modelled as its character list. -/
abbrev DirPath := List Char

/-- DEFAULT_BRANCH = "main" (app.py line 168). -/
def DEFAULT_BRANCH : List Char := "main".data

/-- Default WORKTREES_DIR (app.py line 167). -/
def WORKTREES_DIR : DirPath := "/home/claude-bot/worktrees".data

/-- Function sanitize_thread_ts (line 43): thread_ts.replace(".", "_") replaces
every dot by an underscore. -/
def sanitize_thread_ts (t : ThreadTs) : DirPath :=
  t.map (fun c => if c = '.' then '_' else c)

/-- Directory used for a thread's worktree: os.path.join(WORKTREES_DIR,
sanitize_thread_ts(thread_ts)) (lines 51-52). -/
def worktreePath (t : ThreadTs) : DirPath :=
  WORKTREES_DIR ++ '/' :: sanitize_thread_ts t

/-- Reconstruction in cleanup_stale_worktrees (line 122):
entry.replace("_", ".", 1) rewrites only the first underscore into a dot. -/
def desanitize_entry : DirPath → ThreadTs
  | [] => []
  | c :: cs => if c = '_' then '.' :: cs else c :: desanitize_entry cs

/-- Python str.strip(): drop whitespace from both ends. -/
def pyStrip (s : List Char) : List Char :=
  ((s.dropWhile Char.isWhitespace).reverse.dropWhile Char.isWhitespace).reverse

/-- Python `a or b` on strings: empty strings are falsy. -/
def pyOr2 (a b : List Char) : List Char :=
  if a = [] then b else a

/-- Python `branch or DEFAULT` where branch may be None or an empty string. -/
def pyOrD (b : Option (List Char)) (d : List Char) : List Char :=
  match b with
  | none => d
  | some s => if s = [] then d else s

/-- Remove every occurrence of an element: models Python `set.discard` and
directory deletion on a duplicate-free inventory. -/
def removeAll (l : List (List Char)) (t : List Char) : List (List Char) :=
  l.filter (fun x => decide (x ≠ t))

/-- Remove the first occurrence of an element (one pending request leaves a
multiset of pending requests). -/
def eraseOne : List (List Char) → List Char → List (List Char)
  | [], _ => []
  | c :: cs, t => if c = t then cs else c :: eraseOne cs t

/-- Captured result of one external git invocation: exit status and captured
output, as subprocess.run returns them. -/
structure GitResult where
  returncode : Int
  stdout : List Char
  stderr : List Char
deriving DecidableEq

/-- A successful git invocation (returncode 0, no output). -/
def gitOk : GitResult := ⟨0, [], []⟩

/-- Mutating git invocations the worktree manager can make. -/
inductive GitOp where
  | worktreeAdd (path ref : List Char)
  | worktreePrune
  | worktreeRemove (path : DirPath)
  | checkoutNewBranch (branch : List Char)
deriving DecidableEq

/-- Error text raised at lines 82-85 when both worktree-add attempts fail. -/
def worktree_add_err (t : ThreadTs) (b stderr : List Char) : List Char :=
  "Failed to create worktree for thread ".data ++ t ++ " on branch ".data ++ b
    ++ ": ".data ++ stderr

/-- Function ensure_worktree (lines 45-88). `fs` is the set of directories
that exist under WORKTREES_DIR; `r1` and `r2` are the results git would report
for the first and the (possible) second `worktree add` attempt. Returns the
path or the raised error text, the new directory set, and the trace of
mutating git invocations. -/
def ensure_worktree (fs : List DirPath) (t : ThreadTs) (branch : Option (List Char))
    (r1 r2 : GitResult) : Except (List Char) DirPath × List DirPath × List GitOp :=
  if worktreePath t ∈ fs then (.ok (worktreePath t), fs, [])
  else
    let b := pyOrD branch DEFAULT_BRANCH
    if r1.returncode = 0 then
      (.ok (worktreePath t), worktreePath t :: fs, [.worktreeAdd (worktreePath t) b])
    else if r2.returncode = 0 then
      (.ok (worktreePath t), worktreePath t :: fs,
        [.worktreeAdd (worktreePath t) b, .worktreePrune, .worktreeAdd (worktreePath t) b])
    else
      (.error (worktree_add_err t b r2.stderr), fs,
        [.worktreeAdd (worktreePath t) b, .worktreePrune, .worktreeAdd (worktreePath t) b])

/-- Function remove_worktree (lines 90-107): no-op success when the directory
is absent; otherwise `git worktree remove --force`, reporting failure without
changing the inventory. -/
def remove_worktree (fs : List DirPath) (t : ThreadTs) (r : GitResult) :
    Bool × List DirPath × List GitOp :=
  if worktreePath t ∈ fs then
    if r.returncode = 0 then (true, removeAll fs (worktreePath t), [.worktreeRemove (worktreePath t)])
    else (false, fs, [.worktreeRemove (worktreePath t)])
  else (true, fs, [])

/-- Sweep decision of cleanup_stale_worktrees (lines 116-135) for one
directory entry with modification time `m`: the entry is removed iff the
reconstructed thread id is not a key of thread_sessions and the mtime is not
newer than the cutoff. `registry` is the key set of thread_sessions. -/
def sweepRemoves (registry : List ThreadTs) (cutoff : Nat) (entry : DirPath) (m : Nat) : Bool :=
  !(decide (desanitize_entry entry ∈ registry)) && decide (m ≤ cutoff)

/-- Value type of thread_sessions (lines 24-26): session id, branch and
worktree path recorded for one thread. -/
structure Session where
  session_id : List Char
  branch : List Char
  worktree_path : DirPath
deriving DecidableEq

/-- The thread_sessions dict, as an association list where the most recent
assignment comes first. -/
abbrev Registry := List (ThreadTs × Session)

/-- Dict lookup: thread_sessions.get(t). -/
def lookupReg : Registry → ThreadTs → Option Session
  | [], _ => none
  | (k, v) :: rest, t => if k = t then some v else lookupReg rest t

/-- Dict assignment: thread_sessions[t] = s. -/
def setReg (reg : Registry) (t : ThreadTs) (s : Session) : Registry :=
  (t, s) :: reg

/-- Branches visible to `git rev-parse --verify` locally and on the remote. -/
structure BranchState where
  localBranches : List (List Char)
  remoteBranches : List (List Char)
deriving DecidableEq

/-- The branch-existence test of setup_branch (lines 352-364): local
rev-parse, then remote rev-parse. -/
def branchKnown (bs : BranchState) (branch : List Char) : Bool :=
  decide (branch ∈ bs.localBranches) || decide (branch ∈ bs.remoteBranches)

/-- Reply at line 388. -/
def branch_exists_message (b : List Char) : List Char :=
  "Worktree ready on existing branch `".data ++ b ++ "`".data

/-- Reply at line 390. -/
def branch_created_message (b : List Char) : List Char :=
  "Created new branch `".data ++ b ++ "` (from `".data ++ DEFAULT_BRANCH ++ "`)".data

/-- Result of setup_branch: the reply text, the new registry, the new
directory inventory and the trace of mutating git invocations. -/
structure SetupOut where
  message : List Char
  registry : Registry
  fs : List DirPath
  ops : List GitOp
deriving DecidableEq

/-- Function setup_branch (lines 340-390). `rRemove`, `r1`, `r2`, `rCheckout`
are the results git would report for the worktree removal, the two worktree-add
attempts, and `git checkout -b`. -/
def setup_branch (reg : Registry) (fs : List DirPath) (bs : BranchState)
    (t branch : List Char) (rRemove r1 r2 rCheckout : GitResult) : SetupOut :=
  let storedPath := ((lookupReg reg t).map Session.worktree_path).getD []
  let oldSid := ((lookupReg reg t).map Session.session_id).getD []
  let rem := if storedPath ≠ [] ∧ storedPath ∈ fs then remove_worktree fs t rRemove
             else (true, fs, [])
  let bex := branchKnown bs branch
  let ens := ensure_worktree rem.2.1 t (some (if bex then branch else DEFAULT_BRANCH)) r1 r2
  match ens.1 with
  | .error e => ⟨"Failed to create worktree: ".data ++ e, reg, ens.2.1, rem.2.2 ++ ens.2.2⟩
  | .ok wp =>
    if bex then
      ⟨branch_exists_message branch, setReg reg t ⟨oldSid, branch, wp⟩, ens.2.1,
        rem.2.2 ++ ens.2.2⟩
    else if rCheckout.returncode = 0 then
      ⟨branch_created_message branch, setReg reg t ⟨oldSid, branch, wp⟩, ens.2.1,
        rem.2.2 ++ ens.2.2 ++ [.checkoutNewBranch branch]⟩
    else
      ⟨"Worktree created but failed to create branch `".data ++ branch ++ "`: ".data
          ++ pyStrip rCheckout.stderr, reg, ens.2.1,
        rem.2.2 ++ ens.2.2 ++ [.checkoutNewBranch branch]⟩

/-- Parsed JSON output of the agent CLI: the optional "result" and
"session_id" fields. `none` at the use site models json.loads failing or the
output not being an object. -/
structure AgentOutput where
  result : Option (List Char)
  session_id : Option (List Char)
deriving DecidableEq

/-- Function get_current_branch (lines 32-39): the stripped stdout of
`git branch --show-current` when it exits 0, with empty output (or failure)
falling back to DEFAULT_BRANCH. -/
def get_current_branch (r : GitResult) : List Char :=
  pyOr2 (if r.returncode = 0 then pyStrip r.stdout else []) DEFAULT_BRANCH

/-- Registry-update section of run_claude (lines 296-312): on parsed output
with a truthy session_id, thread_sessions[t] is set to the session id, the
re-read current branch and the worktree path; on any other outcome the
registry is untouched and a fallback message is produced. `rBranch` is the
result of `git branch --show-current`; `so`/`se` are the agent's raw stdout
and stderr. Returns the new registry and the text sent to Slack. -/
def post_run_update (reg : Registry) (t : ThreadTs) (wp : DirPath)
    (parse : Option AgentOutput) (rBranch : GitResult) (so se : List Char) :
    Registry × List Char :=
  match parse with
  | none => (reg, pyOr2 so (pyOr2 se "Something went wrong.".data))
  | some out =>
    let message := out.result.getD "Done, but no output.".data
    match out.session_id with
    | none => (reg, message)
    | some sid =>
      if sid = [] then (reg, message)
      else (setReg reg t ⟨sid, get_current_branch rBranch, wp⟩, message)

/-- MAX_CLAUDE_PROCESSES (line 22). -/
def MAX_CLAUDE_PROCESSES : Nat := 5

/-- Shared admission-control state, with ghost bookkeeping of in-flight
requests. `claude_process_count` and `active_threads` are the globals of
lines 21 and 29; `spawned` are the thread ids of run_claude invocations that
were admitted by the ceiling gate but have not yet executed their
active-thread check (lines 226-234); `running` are those between a successful
active-thread check and the `finally` release (lines 316-320); `leaked` counts
slots acquired by requests that were answered as built-in commands (lines
479-488), which return without any decrement. -/
structure Config where
  claude_process_count : Nat
  active_threads : List ThreadTs
  spawned : List ThreadTs
  running : List ThreadTs
  leaked : Nat
deriving DecidableEq

/-- The empty state at process start. -/
def init_config : Config :=
  ⟨0, [], [], [], 0⟩

/-- Atomic transitions of the admission-control state. Each constructor is one
lock-protected section of app.py (every read-modify-write of the shared
globals happens under claude_lock or active_threads_lock):
`gate_busy`/`gate_builtin`/`gate_spawn` are the ceiling gate of slack_events
(lines 468-472) followed by the request being rejected, answered as a built-in
command (returning at lines 479-488 without a decrement), or handed to a
run_claude thread; `check_reject`/`check_enter` are the active-thread check of
run_claude (lines 226-234); `run_exit` is the release performed on every
run_claude exit after the check succeeded — the workspace-setup failure
return (lines 255-258) and the `finally` block (lines 316-320) have the same
effect on the shared state. -/
inductive Step : Config → Config → Prop
  | gate_busy (c : Config) :
      MAX_CLAUDE_PROCESSES ≤ c.claude_process_count → Step c c
  | gate_builtin (c : Config) :
      c.claude_process_count < MAX_CLAUDE_PROCESSES →
      Step c { c with
        claude_process_count := c.claude_process_count + 1
        leaked := c.leaked + 1 }
  | gate_spawn (c : Config) (t : ThreadTs) :
      c.claude_process_count < MAX_CLAUDE_PROCESSES →
      Step c { c with
        claude_process_count := c.claude_process_count + 1
        spawned := t :: c.spawned }
  | check_reject (c : Config) (t : ThreadTs) :
      t ∈ c.spawned → t ∈ c.active_threads →
      Step c { c with
        claude_process_count := c.claude_process_count - 1
        spawned := eraseOne c.spawned t }
  | check_enter (c : Config) (t : ThreadTs) :
      t ∈ c.spawned → t ∉ c.active_threads →
      Step c { c with
        spawned := eraseOne c.spawned t
        active_threads := t :: c.active_threads
        running := t :: c.running }
  | run_exit (c : Config) (t : ThreadTs) :
      t ∈ c.running →
      Step c { c with
        claude_process_count := c.claude_process_count - 1
        active_threads := removeAll c.active_threads t
        running := removeAll c.running t }

/-- Reflexive-transitive closure of `Step`. -/
inductive Reaches : Config → Config → Prop
  | refl (c : Config) : Reaches c c
  | tail {a b c : Config} : Reaches a b → Step b c → Reaches a c

/-- States reachable from process start. -/
def Reachable (c : Config) : Prop :=
  Reaches init_config c

/-- Invariant of the admission-control state: the counter accounts exactly
for the in-flight and leaked slots, never exceeds the ceiling, and the active
set is exactly the set of threads with a run in flight, without duplicates. -/
def StateInv (c : Config) : Prop :=
  c.claude_process_count = c.spawned.length + c.running.length + c.leaked ∧
  c.claude_process_count ≤ MAX_CLAUDE_PROCESSES ∧
  c.active_threads.Nodup ∧
  c.running.Nodup ∧
  ∀ t, t ∈ c.active_threads ↔ t ∈ c.running

/-- Invariant used for the slot-leak analysis: the state invariant holds and
at least one slot is leaked. -/
def LeakInv (c : Config) : Prop :=
  StateInv c ∧ 1 ≤ c.leaked

/-- The state right after an admitted built-in command from idle: one slot
held, nothing spawned or running, one leaked slot. -/
def leaked_builtin_config : Config :=
  ⟨1, [], [], [], 1⟩

/-- The ceiling gate of slack_events (lines 468-472), one atomic
check-and-increment under claude_lock: `false` means the "Busy right now
boss" reply was posted and the request dropped. -/
def admission_gate (count : Nat) : Nat × Bool :=
  if MAX_CLAUDE_PROCESSES ≤ count then (count, false) else (count + 1, true)

/-- N requests passing the ceiling gate one after the other (they serialize
on claude_lock), with no intervening release: the final counter and the
per-request outcomes. -/
def admission_run (count : Nat) : List ThreadTs → Nat × List (ThreadTs × Bool)
  | [] => (count, [])
  | t :: ts =>
    let g := admission_gate count
    let rest := admission_run g.1 ts
    (rest.1, (t, g.2) :: rest.2)

/-- Outcome of the active-thread check of run_claude. -/
inductive CheckOutcome where
  | proceed
  | alreadyRunning
deriving DecidableEq

/-- The active-thread check of run_claude (lines 226-234), one atomic section
under active_threads_lock: a thread already active is answered with the
"I'm still working on the previous request" reply and the slot is released;
otherwise the thread is marked active. -/
def active_check (active : List ThreadTs) (count : Nat) (t : ThreadTs) :
    (List ThreadTs × Nat) × CheckOutcome :=
  if t ∈ active then ((active, count - 1), .alreadyRunning)
  else ((t :: active, count), .proceed)

/-- N active-thread checks for the same thread id, one after the other (they
serialize on active_threads_lock), with no intervening release: the final
state and the number of checks that proceeded. -/
def check_run (active : List ThreadTs) (count : Nat) (t : ThreadTs) :
    Nat → (List ThreadTs × Nat) × Nat
  | 0 => ((active, count), 0)
  | n + 1 =>
    let st := active_check active count t
    let rest := check_run st.1.1 st.1.2 t n
    (rest.1, (if st.2 = .proceed then 1 else 0) + rest.2)

/-! Helper lemmas about the list operations. -/

lemma mem_removeAll {l : List (List Char)} {s t : List Char} :
    s ∈ removeAll l t ↔ s ∈ l ∧ s ≠ t := by
  simp [removeAll, List.mem_filter]

lemma not_mem_removeAll_self (l : List (List Char)) (t : List Char) :
    t ∉ removeAll l t := by
  simp [mem_removeAll]

lemma nodup_removeAll {l : List (List Char)} (t : List Char) (h : l.Nodup) :
    (removeAll l t).Nodup :=
  h.filter _

lemma removeAll_of_not_mem {l : List (List Char)} {t : List Char} (h : t ∉ l) :
    removeAll l t = l := by
  induction l with
  | nil => rfl
  | cons c cs ih =>
    have hct : c ≠ t := by rintro rfl; exact h (List.mem_cons_self _ _)
    have hcs : t ∉ cs := fun hx => h (List.mem_cons_of_mem _ hx)
    have h2 : List.filter (fun x => decide (x ≠ t)) cs = cs := ih hcs
    simp only [removeAll, List.filter_cons]
    rw [if_pos (by simpa using hct), h2]

lemma length_removeAll_of_mem {l : List (List Char)} {t : List Char}
    (hnd : l.Nodup) (hm : t ∈ l) : (removeAll l t).length + 1 = l.length := by
  induction l with
  | nil => cases hm
  | cons c cs ih =>
    rw [List.nodup_cons] at hnd
    rcases List.mem_cons.mp hm with rfl | hm'
    · have h2 : List.filter (fun x => decide (x ≠ t)) cs = cs :=
        removeAll_of_not_mem hnd.1
      simp only [removeAll, List.filter_cons]
      rw [if_neg (by simp), h2, List.length_cons]
    · have hct : c ≠ t := by rintro rfl; exact hnd.1 hm'
      have h2 := ih hnd.2 hm'
      simp only [removeAll, List.filter_cons] at h2 ⊢
      rw [if_pos (by simpa using hct), List.length_cons, List.length_cons]
      omega

lemma length_eraseOne_of_mem {l : List (List Char)} {t : List Char} (h : t ∈ l) :
    (eraseOne l t).length + 1 = l.length := by
  induction l with
  | nil => cases h
  | cons c cs ih =>
    by_cases hc : c = t
    · simp [eraseOne, hc]
    · rcases List.mem_cons.mp h with rfl | hm
      · exact absurd rfl hc
      · have h2 := ih hm
        simp only [eraseOne]
        rw [if_neg hc]
        simp only [List.length_cons]
        omega

/-! Helper lemmas about sanitization and reconstruction. -/

lemma san_cons_dot (cs : List Char) :
    sanitize_thread_ts ('.' :: cs) = '_' :: sanitize_thread_ts cs := by
  simp [sanitize_thread_ts]

lemma san_cons_other {c : Char} (h : c ≠ '.') (cs : List Char) :
    sanitize_thread_ts (c :: cs) = c :: sanitize_thread_ts cs := by
  simp [sanitize_thread_ts, h]

lemma desan_cons_underscore (cs : List Char) :
    desanitize_entry ('_' :: cs) = '.' :: cs := by
  simp [desanitize_entry]

lemma desan_cons_other {c : Char} (h : c ≠ '_') (cs : List Char) :
    desanitize_entry (c :: cs) = c :: desanitize_entry cs := by
  simp [desanitize_entry, h]

lemma sanitize_fixed_iff (s : ThreadTs) : sanitize_thread_ts s = s ↔ '.' ∉ s := by
  induction s with
  | nil => simp [sanitize_thread_ts]
  | cons c cs ih =>
    rw [List.mem_cons]
    by_cases hc : c = '.'
    · subst hc
      rw [san_cons_dot]
      constructor
      · intro h
        exact absurd (List.cons.injEq _ _ _ _ ▸ h).1 (by decide)
      · intro h
        exact absurd (Or.inl rfl) h
    · rw [san_cons_other hc, List.cons.injEq]
      constructor
      · rintro ⟨-, h2⟩ hor
        rcases hor with h3 | h3
        · exact hc h3.symm
        · exact (ih.mp h2) h3
      · intro h
        exact ⟨rfl, ih.mpr (fun h2 => h (Or.inr h2))⟩

lemma count_dot_cons_dot (cs : List Char) :
    ('.' :: cs).count '.' = cs.count '.' + 1 := by
  simp [List.count_cons]

lemma count_dot_cons_ne {c : Char} (h : c ≠ '.') (cs : List Char) :
    (c :: cs).count '.' = cs.count '.' := by
  simp [List.count_cons, h]

lemma desan_san_iff (s : ThreadTs) :
    desanitize_entry (sanitize_thread_ts s) = s ↔
      (s.count '.' ≤ 1 ∧ '_' ∉ s.takeWhile (fun c => decide (c ≠ '.'))) := by
  induction s with
  | nil => simp [sanitize_thread_ts, desanitize_entry]
  | cons c cs ih =>
    by_cases hdot : c = '.'
    · subst hdot
      rw [san_cons_dot, desan_cons_underscore, List.cons.injEq]
      simp only [true_and]
      rw [sanitize_fixed_iff]
      constructor
      · intro h
        refine ⟨?_, by simp [List.takeWhile_cons]⟩
        rw [count_dot_cons_dot, List.count_eq_zero.mpr h]
      · rintro ⟨h1, -⟩
        refine List.count_eq_zero.mp ?_
        rw [count_dot_cons_dot] at h1
        omega
    · by_cases hus : c = '_'
      · subst hus
        rw [san_cons_other hdot, desan_cons_underscore]
        constructor
        · intro h
          exact absurd (List.cons.injEq _ _ _ _ ▸ h).1 (by decide)
        · rintro ⟨-, h2⟩
          refine absurd ?_ h2
          rw [List.takeWhile_cons, if_pos (by simp [hdot])]
          exact List.mem_cons_self _ _
      · rw [san_cons_other hdot, desan_cons_other hus, List.cons.injEq]
        simp only [true_and]
        rw [ih]
        constructor
        · rintro ⟨h1, h2⟩
          refine ⟨by rw [count_dot_cons_ne hdot]; exact h1, ?_⟩
          rw [List.takeWhile_cons, if_pos (by simpa using hdot), List.mem_cons]
          push_neg
          exact ⟨fun hx => hus hx.symm, h2⟩
        · rintro ⟨h1, h2⟩
          rw [List.takeWhile_cons, if_pos (by simpa using hdot), List.mem_cons] at h2
          push_neg at h2
          refine ⟨?_, h2.2⟩
          rwa [count_dot_cons_ne hdot] at h1

lemma sanitize_inj {s : ThreadTs} : ∀ {t : ThreadTs}, '_' ∉ s → '_' ∉ t →
    sanitize_thread_ts s = sanitize_thread_ts t → s = t := by
  induction s with
  | nil =>
    intro t _ _ h
    cases t with
    | nil => rfl
    | cons b bs => simp [sanitize_thread_ts] at h
  | cons a as ih =>
    intro t hs ht h
    cases t with
    | nil => simp [sanitize_thread_ts] at h
    | cons b bs =>
      simp only [sanitize_thread_ts, List.map_cons, List.cons.injEq] at h
      rw [List.mem_cons] at hs ht
      push_neg at hs ht
      obtain ⟨h1, h2⟩ := h
      have hab : a = b := by
        by_cases ha : a = '.' <;> by_cases hb : b = '.'
        · rw [ha, hb]
        · rw [if_pos ha, if_neg hb] at h1
          exact absurd h1 ht.1
        · rw [if_neg ha, if_pos hb] at h1
          exact absurd h1 (Ne.symm hs.1)
        · rwa [if_neg ha, if_neg hb] at h1
      subst hab
      exact congrArg (a :: ·) (ih hs.2 ht.2 h2)

/-! Helper lemmas about the registry and the worktree operations. -/

lemma lookupReg_setReg_self (reg : Registry) (t : ThreadTs) (s : Session) :
    lookupReg (setReg reg t s) t = some s := by
  simp [setReg, lookupReg]

lemma lookupReg_setReg_isSome (reg : Registry) (t t' : ThreadTs) (s : Session)
    (h : (lookupReg reg t').isSome) : (lookupReg (setReg reg t s) t').isSome := by
  by_cases ht : t = t' <;> simp [setReg, lookupReg, ht, h]

lemma ensure_worktree_mem {fs : List DirPath} {t : ThreadTs} {branch : Option (List Char)}
    {r1 r2 : GitResult} (h : worktreePath t ∈ fs) :
    ensure_worktree fs t branch r1 r2 = (.ok (worktreePath t), fs, []) := by
  simp [ensure_worktree, h]

lemma ensure_worktree_ok {fs : List DirPath} {t : ThreadTs} {branch : Option (List Char)}
    {r2 : GitResult} (h : worktreePath t ∉ fs) :
    ensure_worktree fs t branch gitOk r2 =
      (.ok (worktreePath t), worktreePath t :: fs,
        [.worktreeAdd (worktreePath t) (pyOrD branch DEFAULT_BRANCH)]) := by
  simp [ensure_worktree, h, gitOk]

lemma worktreePath_ne_nil (t : ThreadTs) : worktreePath t ≠ [] := by
  simp [worktreePath, WORKTREES_DIR]

/-! Helper lemmas about the admission-control transition system. -/

lemma reaches_preserve {P : Config → Prop}
    (hstep : ∀ {x y : Config}, P x → Step x y → P y) {a b : Config}
    (h : Reaches a b) (ha : P a) : P b := by
  induction h with
  | refl => exact ha
  | tail _ hs ih => exact hstep ih hs

lemma stateInv_init : StateInv init_config := by
  refine ⟨rfl, ?_, ?_, ?_, ?_⟩ <;> simp [init_config, MAX_CLAUDE_PROCESSES]

lemma stateInv_step {a b : Config} (ha : StateInv a) (h : Step a b) : StateInv b := by
  obtain ⟨h1, h2, h3, h4, h5⟩ := ha
  cases h with
  | gate_busy hc => exact ⟨h1, h2, h3, h4, h5⟩
  | gate_builtin hc =>
    refine ⟨?_, ?_, h3, h4, h5⟩
    · dsimp only; omega
    · dsimp only; omega
  | gate_spawn t hc =>
    refine ⟨?_, ?_, h3, h4, h5⟩
    · dsimp only; simp only [List.length_cons]; omega
    · dsimp only; omega
  | check_reject t hsp hact =>
    have hel := length_eraseOne_of_mem hsp
    refine ⟨?_, ?_, h3, h4, h5⟩
    · dsimp only; omega
    · dsimp only; omega
  | check_enter t hsp hnot =>
    have hel := length_eraseOne_of_mem hsp
    have hnr : t ∉ a.running := fun hr => hnot ((h5 t).mpr hr)
    refine ⟨?_, ?_, ?_, ?_, ?_⟩
    · dsimp only; simp only [List.length_cons]; omega
    · dsimp only; omega
    · exact List.nodup_cons.mpr ⟨hnot, h3⟩
    · exact List.nodup_cons.mpr ⟨hnr, h4⟩
    · intro s
      dsimp only
      rw [List.mem_cons, List.mem_cons, h5 s]
  | run_exit t hr =>
    have hel := length_removeAll_of_mem h4 hr
    refine ⟨?_, ?_, ?_, ?_, ?_⟩
    · dsimp only; omega
    · dsimp only; omega
    · exact nodup_removeAll _ h3
    · exact nodup_removeAll _ h4
    · intro s
      dsimp only
      rw [mem_removeAll, mem_removeAll, h5 s]

lemma reachable_stateInv {c : Config} (h : Reachable c) : StateInv c :=
  reaches_preserve (fun hx hs => stateInv_step hx hs) h stateInv_init

lemma leaked_mono {a b : Config} (h : Step a b) : a.leaked ≤ b.leaked := by
  cases h <;> first
    | exact le_refl _
    | (dsimp only; omega)

lemma leakInv_step {a b : Config} (ha : LeakInv a) (h : Step a b) : LeakInv b :=
  ⟨stateInv_step ha.1 h, le_trans ha.2 (leaked_mono h)⟩

lemma admission_run_countP (ids : List ThreadTs) :
    ∀ count, (admission_run count ids).2.countP (fun p => p.2) =
      min ids.length (MAX_CLAUDE_PROCESSES - count) := by
  induction ids with
  | nil => intro count; simp [admission_run]
  | cons t ts ih =>
    intro count
    by_cases hc : MAX_CLAUDE_PROCESSES ≤ count
    · simp only [admission_run, admission_gate, if_pos hc, List.countP_cons, ih count,
        List.length_cons]
      simp only [cond_false, Bool.false_eq_true, if_false]
      omega
    · simp only [admission_run, admission_gate, if_neg hc, List.countP_cons, ih (count + 1),
        List.length_cons, if_true]
      omega

lemma admission_run_drop (ids : List ThreadTs) :
    ∀ count p, p ∈ (admission_run count ids).2.drop (MAX_CLAUDE_PROCESSES - count) →
      p.2 = false := by
  induction ids with
  | nil => intro count p hp; simp [admission_run] at hp
  | cons t ts ih =>
    intro count p hp
    by_cases hc : MAX_CLAUDE_PROCESSES ≤ count
    · have h0 : MAX_CLAUDE_PROCESSES - count = 0 := by omega
      rw [h0, List.drop_zero] at hp
      simp only [admission_run, admission_gate, if_pos hc] at hp
      rcases List.mem_cons.mp hp with rfl | hp'
      · rfl
      · exact ih count p (by rw [h0, List.drop_zero]; exact hp')
    · have hsucc : MAX_CLAUDE_PROCESSES - count = (MAX_CLAUDE_PROCESSES - (count + 1)) + 1 := by
        omega
      simp only [admission_run, admission_gate, if_neg hc] at hp
      rw [hsucc, List.drop_succ_cons] at hp
      exact ih (count + 1) p hp

lemma admission_run_final (ids : List ThreadTs) :
    ∀ count, count ≤ MAX_CLAUDE_PROCESSES →
      (admission_run count ids).1 = min (count + ids.length) MAX_CLAUDE_PROCESSES := by
  induction ids with
  | nil => intro count h; simp [admission_run]; omega
  | cons t ts ih =>
    intro count h
    by_cases hc : MAX_CLAUDE_PROCESSES ≤ count
    · simp only [admission_run, admission_gate, if_pos hc, ih count h, List.length_cons]
      omega
    · simp only [admission_run, admission_gate, if_neg hc, ih (count + 1) (by omega),
        List.length_cons]
      omega

lemma check_run_stuck (t : ThreadTs) (n : Nat) :
    ∀ active count, t ∈ active →
      (check_run active count t n).2 = 0 ∧ (check_run active count t n).1.1 = active := by
  induction n with
  | zero => intro active count _; exact ⟨rfl, rfl⟩
  | succ n ih =>
    intro active count h
    simp only [check_run, active_check, if_pos h]
    have h2 := ih active (count - 1) h
    refine ⟨?_, h2.2⟩
    simp [h2.1]

lemma check_run_first (active : List ThreadTs) (count : Nat) (t : ThreadTs) (n : Nat)
    (h : t ∉ active) :
    (check_run active count t (n + 1)).2 = 1 ∧ t ∈ (check_run active count t (n + 1)).1.1 := by
  simp only [check_run, active_check, if_neg h]
  have h2 := check_run_stuck t n (t :: active) count (List.mem_cons_self _ _)
  constructor
  · simp [h2.1]
  · simp only [h2.2]
    exact List.mem_cons_self _ _

lemma branch_messages_ne (b b' : List Char) :
    branch_exists_message b ≠ branch_created_message b' := by
  intro h
  have h2 : (branch_exists_message b).head? = (branch_created_message b').head? := by rw [h]
  have h3 : (branch_exists_message b).head? = some 'W' := rfl
  have h4 : (branch_created_message b').head? = some 'C' := rfl
  rw [h3, h4] at h2
  cases h2

lemma remove_worktree_mem_ok {fs : List DirPath} {t : ThreadTs} (h : worktreePath t ∈ fs) :
    remove_worktree fs t gitOk =
      (true, removeAll fs (worktreePath t), [.worktreeRemove (worktreePath t)]) := by
  simp [remove_worktree, h, gitOk]

lemma remove_worktree_not_mem {fs : List DirPath} {t : ThreadTs} {r : GitResult}
    (h : worktreePath t ∉ fs) : remove_worktree fs t r = (true, fs, []) := by
  simp [remove_worktree, h]

/-! The claims. -/

/-- C5 counterexample: the name derivation is not injective on all conversation
id strings: the distinct ids "1.2" and "1_2" receive the same workspace path. -/
theorem c5_sanitize_collision :
    worktreePath "1.2".data = worktreePath "1_2".data ∧ "1.2".data ≠ "1_2".data := by
  decide

/-- C5 (amended): the directory-name derivation is injective on conversation
ids that contain no underscore (which includes every Slack thread_ts, these
being digits.digits): two such ids with the same workspace path are equal. -/
theorem c5_sanitize_injective (s t : ThreadTs) (hs : '_' ∉ s) (ht : '_' ∉ t)
    (h : worktreePath s = worktreePath t) : s = t := by
  apply sanitize_inj hs ht
  have h2 := List.append_cancel_left h
  exact (List.cons.injEq _ _ _ _ ▸ h2).2

/-- C5 witness. -/
theorem c5_sanitize_injective_witness : "1.5".data = "1.5".data :=
  c5_sanitize_injective "1.5".data "1.5".data (by decide) (by decide) rfl

/-- C10 counterexample: reconstruction is a left inverse on some ids that do
contain an underscore: "1.2_3" contains an underscore yet
desanitize_entry (sanitize_thread_ts "1.2_3") = "1.2_3", contradicting the
claim that any id containing an underscore reconstructs to a different
string. -/
theorem c10_underscore_id_roundtrips :
    desanitize_entry (sanitize_thread_ts "1.2_3".data) = "1.2_3".data ∧
    '_' ∈ "1.2_3".data := by
  decide

/-- C10 (amended): reconstruction (replace the first underscore with a dot)
inverts sanitization (replace every dot with an underscore) exactly for the
ids that contain at most one dot and no underscore before the first dot
(for a dotless id: no underscore at all); every other id reconstructs to a
different string. -/
theorem c10_roundtrip_characterization (s : ThreadTs) :
    desanitize_entry (sanitize_thread_ts s) = s ↔
      (s.count '.' ≤ 1 ∧ '_' ∉ s.takeWhile (fun c => decide (c ≠ '.'))) :=
  desan_san_iff s

/-- C6 counterexample: a workspace whose conversation id "1.2.3" is present in
the registry is nevertheless removed by the sweep (its directory name
reconstructs to "1.2_3", which the membership test does not find), refuting
that a registered workspace is never removed. -/
theorem c6_registered_swept :
    sweepRemoves ["1.2.3".data] 5 (sanitize_thread_ts "1.2.3".data) 0 = true ∧
    "1.2.3".data ∈ ["1.2.3".data] ∧ (0 : Nat) < 5 := by
  decide

/-- C6 (amended): for a workspace whose conversation id survives the
reconstruction round trip (ids with at most one dot and no underscore before
it, which includes every Slack thread_ts), the sweep removes it iff the id is
absent from the registry and the modification time is at or below the cutoff
(age at least the threshold); and the removal targets exactly the workspace's
own directory. -/
theorem c6_sweep_characterization (reg : List ThreadTs) (cutoff m : Nat) (c : ThreadTs)
    (hrt : desanitize_entry (sanitize_thread_ts c) = c) :
    (sweepRemoves reg cutoff (sanitize_thread_ts c) m = true ↔ (c ∉ reg ∧ m ≤ cutoff)) ∧
    worktreePath (desanitize_entry (sanitize_thread_ts c)) = worktreePath c := by
  constructor
  · simp [sweepRemoves, hrt]
  · rw [hrt]

/-- C6 witness. -/
theorem c6_sweep_characterization_witness :
    sweepRemoves [] 5 (sanitize_thread_ts "1.2".data) 3 = true ↔
      ("1.2".data ∉ ([] : List ThreadTs) ∧ 3 ≤ 5) :=
  (c6_sweep_characterization [] 5 3 "1.2".data (by decide)).1

/-- C4: ensure_worktree is idempotent: whenever a call returns a path
(successfully), a second call for the same thread — with any branch argument
and any outcomes the git tool would report — returns the same path, leaves the
directory inventory unchanged, and performs no git invocation at all. -/
theorem c4_ensure_idempotent (fs fs1 : List DirPath) (t : ThreadTs)
    (b b' : Option (List Char)) (r1 r2 r1' r2' : GitResult) (p : DirPath)
    (ops : List GitOp) (h : ensure_worktree fs t b r1 r2 = (.ok p, fs1, ops)) :
    ensure_worktree fs1 t b' r1' r2' = (.ok p, fs1, []) := by
  by_cases hmem : worktreePath t ∈ fs
  · rw [ensure_worktree_mem hmem] at h
    simp only [Prod.mk.injEq, Except.ok.injEq] at h
    obtain ⟨rfl, rfl, -⟩ := h
    rw [ensure_worktree_mem hmem]
  · simp only [ensure_worktree, if_neg hmem] at h
    by_cases hr1 : r1.returncode = 0
    · rw [if_pos hr1] at h
      simp only [Prod.mk.injEq, Except.ok.injEq] at h
      obtain ⟨rfl, rfl, -⟩ := h
      rw [ensure_worktree_mem (List.mem_cons_self _ _)]
    · rw [if_neg hr1] at h
      by_cases hr2 : r2.returncode = 0
      · rw [if_pos hr2] at h
        simp only [Prod.mk.injEq, Except.ok.injEq] at h
        obtain ⟨rfl, rfl, -⟩ := h
        rw [ensure_worktree_mem (List.mem_cons_self _ _)]
      · rw [if_neg hr2] at h
        simp at h

/-- C4 witness: a first call creates the worktree; the second call returns the
same path with an empty git trace. -/
theorem c4_ensure_idempotent_witness :
    ensure_worktree [worktreePath "1.2".data] "1.2".data none gitOk gitOk =
      (.ok (worktreePath "1.2".data), [worktreePath "1.2".data], []) :=
  c4_ensure_idempotent [] [worktreePath "1.2".data] "1.2".data none none gitOk gitOk
    gitOk gitOk (worktreePath "1.2".data)
    [.worktreeAdd (worktreePath "1.2".data) DEFAULT_BRANCH] rfl

/-- C8: retry discipline of ensure_worktree for a thread with no directory on
disk: on first-attempt success exactly one worktree-add is performed (no prune,
no retry) and the call succeeds; on first-attempt failure the trace is exactly
one add, one prune and one retried add, the call succeeds iff the retry
succeeds, and when the retry also fails the raised error text ends with the
git tool's stderr verbatim. -/
theorem c8_prune_retry_once (fs : List DirPath) (t : ThreadTs)
    (b : Option (List Char)) (r1 r2 : GitResult) (hmem : worktreePath t ∉ fs) :
    (r1.returncode = 0 →
      ensure_worktree fs t b r1 r2 =
        (.ok (worktreePath t), worktreePath t :: fs,
          [.worktreeAdd (worktreePath t) (pyOrD b DEFAULT_BRANCH)])) ∧
    (r1.returncode ≠ 0 →
      (ensure_worktree fs t b r1 r2).2.2 =
        [.worktreeAdd (worktreePath t) (pyOrD b DEFAULT_BRANCH), .worktreePrune,
         .worktreeAdd (worktreePath t) (pyOrD b DEFAULT_BRANCH)] ∧
      (r2.returncode = 0 →
        (ensure_worktree fs t b r1 r2).1 = .ok (worktreePath t)) ∧
      (r2.returncode ≠ 0 →
        (ensure_worktree fs t b r1 r2).1 =
          .error (worktree_add_err t (pyOrD b DEFAULT_BRANCH) r2.stderr) ∧
        ∃ pre, worktree_add_err t (pyOrD b DEFAULT_BRANCH) r2.stderr =
          pre ++ r2.stderr)) := by
  constructor
  · intro hr1
    simp only [ensure_worktree, if_neg hmem, if_pos hr1]
  · intro hr1
    by_cases hr2 : r2.returncode = 0
    · have hval : ensure_worktree fs t b r1 r2 =
          (.ok (worktreePath t), worktreePath t :: fs,
            [.worktreeAdd (worktreePath t) (pyOrD b DEFAULT_BRANCH), .worktreePrune,
             .worktreeAdd (worktreePath t) (pyOrD b DEFAULT_BRANCH)]) := by
        simp only [ensure_worktree, if_neg hmem, if_neg hr1, if_pos hr2]
      rw [hval]
      exact ⟨rfl, fun _ => rfl, fun h2 => absurd hr2 h2⟩
    · have hval : ensure_worktree fs t b r1 r2 =
          (.error (worktree_add_err t (pyOrD b DEFAULT_BRANCH) r2.stderr), fs,
            [.worktreeAdd (worktreePath t) (pyOrD b DEFAULT_BRANCH), .worktreePrune,
             .worktreeAdd (worktreePath t) (pyOrD b DEFAULT_BRANCH)]) := by
        simp only [ensure_worktree, if_neg hmem, if_neg hr1, if_neg hr2]
      rw [hval]
      exact ⟨rfl, fun h2 => absurd h2 hr2, fun _ => ⟨rfl, ⟨_, rfl⟩⟩⟩

/-- C8 witness: with both attempts failing, the trace is add-prune-add and the
error carries the tool's stderr. -/
theorem c8_prune_retry_once_witness :
    (ensure_worktree [] "7.8".data none ⟨1, [], "boom".data⟩ ⟨1, [], "boom2".data⟩).2.2 =
      [.worktreeAdd (worktreePath "7.8".data) DEFAULT_BRANCH, .worktreePrune,
       .worktreeAdd (worktreePath "7.8".data) DEFAULT_BRANCH] :=
  ((c8_prune_retry_once [] "7.8".data none ⟨1, [], "boom".data⟩ ⟨1, [], "boom2".data⟩
    (by decide)).2 (by decide)).1

/-- C9: after a successful agent run (output parsed, truthy session id), the
registry entry for the thread is set to exactly the new session id, the branch
re-read from the workspace by get_current_branch, and the workspace path; and
the registry-update step never removes an entry, whatever the parse outcome. -/
theorem c9_registry_update_after_run (reg : Registry) (t : ThreadTs) (wp : DirPath)
    (out : AgentOutput) (rBranch : GitResult) (so se sid : List Char)
    (hsid : out.session_id = some sid) (hne : sid ≠ []) :
    (post_run_update reg t wp (some out) rBranch so se).1 =
      setReg reg t ⟨sid, get_current_branch rBranch, wp⟩ ∧
    lookupReg (post_run_update reg t wp (some out) rBranch so se).1 t =
      some ⟨sid, get_current_branch rBranch, wp⟩ ∧
    (∀ parse t', (lookupReg reg t').isSome →
      (lookupReg (post_run_update reg t wp parse rBranch so se).1 t').isSome) := by
  have hval : (post_run_update reg t wp (some out) rBranch so se).1 =
      setReg reg t ⟨sid, get_current_branch rBranch, wp⟩ := by
    simp [post_run_update, hsid, hne]
  refine ⟨hval, ?_, ?_⟩
  · rw [hval, lookupReg_setReg_self]
  · intro parse t' hsome
    match parse with
    | none => exact hsome
    | some o =>
      simp only [post_run_update]
      match ho : o.session_id with
      | none => exact hsome
      | some s =>
        by_cases hs : s = []
        · simp [hs, hsome]
        · simp only [if_neg hs]
          exact lookupReg_setReg_isSome _ _ _ _ hsome

/-- C9 witness. -/
theorem c9_registry_update_after_run_witness :
    lookupReg (post_run_update [] "1.2".data (worktreePath "1.2".data)
      (some ⟨some "ok".data, some "sid".data⟩) gitOk [] []).1 "1.2".data =
      some ⟨"sid".data, get_current_branch gitOk, worktreePath "1.2".data⟩ :=
  (c9_registry_update_after_run [] "1.2".data (worktreePath "1.2".data)
    ⟨some "ok".data, some "sid".data⟩ gitOk [] [] "sid".data rfl (by decide)).2.1

lemma setup_branch_val (reg : Registry) (fs fs1 : List DirPath) (bs : BranchState)
    (t branch : List Char) (ops1 : List GitOp)
    (hrem : (if (((lookupReg reg t).map Session.worktree_path).getD [] ≠ [] ∧
        ((lookupReg reg t).map Session.worktree_path).getD [] ∈ fs)
        then remove_worktree fs t gitOk else (true, fs, [])) = (true, fs1, ops1))
    (hmem : worktreePath t ∉ fs1) (hbr : branch ≠ []) :
    setup_branch reg fs bs t branch gitOk gitOk gitOk gitOk =
      (if branchKnown bs branch then
        ⟨branch_exists_message branch,
         setReg reg t ⟨((lookupReg reg t).map Session.session_id).getD [], branch,
           worktreePath t⟩,
         worktreePath t :: fs1,
         ops1 ++ [.worktreeAdd (worktreePath t) branch]⟩
      else
        ⟨branch_created_message branch,
         setReg reg t ⟨((lookupReg reg t).map Session.session_id).getD [], branch,
           worktreePath t⟩,
         worktreePath t :: fs1,
         ops1 ++ [.worktreeAdd (worktreePath t) DEFAULT_BRANCH,
           .checkoutNewBranch branch]⟩) := by
  have hD : DEFAULT_BRANCH ≠ [] := by decide
  cases hbex : branchKnown bs branch
  · simp only [setup_branch]
    rw [hrem]
    simp only [hbex, Bool.false_eq_true, if_false]
    rw [ensure_worktree_ok hmem]
    simp [pyOrD, gitOk, hD, List.append_assoc]
  · simp only [setup_branch]
    rw [hrem]
    simp only [hbex, if_true]
    rw [ensure_worktree_ok hmem]
    simp [pyOrD, hbr, List.append_assoc]

/-- C7 counterexample: with a workspace present on disk for thread "1.2" but
no registry entry (the state left by a run whose agent output could not be
parsed), setup_branch performs no git operation at all — the existing
workspace is neither removed nor recreated on the requested branch "feat",
which exists locally. -/
theorem c7_untracked_worktree_reused :
    (setup_branch [] [worktreePath "1.2".data] ⟨["feat".data], []⟩ "1.2".data "feat".data
        gitOk gitOk gitOk gitOk).ops = [] ∧
    (setup_branch [] [worktreePath "1.2".data] ⟨["feat".data], []⟩ "1.2".data "feat".data
        gitOk gitOk gitOk gitOk).fs = [worktreePath "1.2".data] ∧
    worktreePath "1.2".data ∈ [worktreePath "1.2".data] := by
  decide

/-- C7 (amended): for a conversation whose on-disk workspace, when present, is
the one recorded in its registry entry (the untracked-workspace state of the
counterexample excluded), setup_branch with all git invocations succeeding:
removes the existing workspace exactly when one is on disk, then performs one
worktree-add on the requested branch when it exists locally or remotely and on
the default branch otherwise, runs checkout -b for the requested branch
exactly in the branch-did-not-exist case, records the requested branch with
the prior session id and the workspace path in the registry, and returns the
existing-branch reply or the created-branch reply accordingly (two texts that
are never equal). -/
theorem c7_setup_branch_behavior (reg : Registry) (fs : List DirPath) (bs : BranchState)
    (t branch : List Char) (hbr : branch ≠ [])
    (htrack : worktreePath t ∈ fs →
      ∃ s, lookupReg reg t = some s ∧ s.worktree_path = worktreePath t) :
    (setup_branch reg fs bs t branch gitOk gitOk gitOk gitOk).ops =
      (if worktreePath t ∈ fs then [.worktreeRemove (worktreePath t)] else []) ++
      [.worktreeAdd (worktreePath t)
        (if branchKnown bs branch then branch else DEFAULT_BRANCH)] ++
      (if branchKnown bs branch then ([] : List GitOp)
       else [.checkoutNewBranch branch]) ∧
    lookupReg (setup_branch reg fs bs t branch gitOk gitOk gitOk gitOk).registry t =
      some ⟨((lookupReg reg t).map Session.session_id).getD [], branch, worktreePath t⟩ ∧
    (setup_branch reg fs bs t branch gitOk gitOk gitOk gitOk).message =
      (if branchKnown bs branch then branch_exists_message branch
       else branch_created_message branch) ∧
    branch_exists_message branch ≠ branch_created_message branch ∧
    worktreePath t ∈ (setup_branch reg fs bs t branch gitOk gitOk gitOk gitOk).fs := by
  by_cases hfs : worktreePath t ∈ fs
  · obtain ⟨s, hs, hwp⟩ := htrack hfs
    have hstored : ((lookupReg reg t).map Session.worktree_path).getD [] =
        worktreePath t := by
      rw [hs, Option.map_some', Option.getD_some, hwp]
    have hrem : (if (((lookupReg reg t).map Session.worktree_path).getD [] ≠ [] ∧
        ((lookupReg reg t).map Session.worktree_path).getD [] ∈ fs)
        then remove_worktree fs t gitOk else (true, fs, [])) =
        (true, removeAll fs (worktreePath t), [.worktreeRemove (worktreePath t)]) := by
      rw [if_pos (by rw [hstored]; exact ⟨worktreePath_ne_nil t, hfs⟩)]
      exact remove_worktree_mem_ok hfs
    have hval := setup_branch_val reg fs (removeAll fs (worktreePath t)) bs t branch
      [.worktreeRemove (worktreePath t)] hrem (not_mem_removeAll_self fs _) hbr
    cases hbex : branchKnown bs branch
    · rw [hbex, if_neg (by simp)] at hval
      rw [hval]
      exact ⟨by simp [hfs, hbex], lookupReg_setReg_self _ _ _, by simp [hbex],
        branch_messages_ne _ _, by simp⟩
    · rw [hbex, if_pos rfl] at hval
      rw [hval]
      exact ⟨by simp [hfs, hbex], lookupReg_setReg_self _ _ _, by simp [hbex],
        branch_messages_ne _ _, by simp⟩
  · have hrem : (if (((lookupReg reg t).map Session.worktree_path).getD [] ≠ [] ∧
        ((lookupReg reg t).map Session.worktree_path).getD [] ∈ fs)
        then remove_worktree fs t gitOk else (true, fs, [])) = (true, fs, []) := by
      split
      · exact remove_worktree_not_mem hfs
      · rfl
    have hval := setup_branch_val reg fs fs bs t branch [] hrem hfs hbr
    cases hbex : branchKnown bs branch
    · rw [hbex, if_neg (by simp)] at hval
      rw [hval]
      exact ⟨by simp [hfs, hbex], lookupReg_setReg_self _ _ _, by simp [hbex],
        branch_messages_ne _ _, by simp⟩
    · rw [hbex, if_pos rfl] at hval
      rw [hval]
      exact ⟨by simp [hfs, hbex], lookupReg_setReg_self _ _ _, by simp [hbex],
        branch_messages_ne _ _, by simp⟩

/-- C7 witness: a fresh conversation and an unknown branch "b": the registry
records branch "b" with the workspace path and an empty prior session id. -/
theorem c7_setup_branch_behavior_witness :
    lookupReg (setup_branch [] [] ⟨[], []⟩ "1.2".data "b".data
        gitOk gitOk gitOk gitOk).registry "1.2".data =
      some ⟨[], "b".data, worktreePath "1.2".data⟩ :=
  (c7_setup_branch_behavior [] [] ⟨[], []⟩ "1.2".data "b".data (by decide)
    (fun h => absurd h (List.not_mem_nil _))).2.1

/-- C1: code-bug witness theorem: from the idle state, admitting a request
whose text is a built-in command (for example "!status") is a legal step of
the system — the ceiling gate increments claude_process_count (line 472) and
the handler then returns (lines 479-488) without any decrement, leaving no
spawned or running request that could release the slot. Every state reachable
from the resulting state keeps the counter at least 1: the slot is never
released, contradicting the claimed exactly-once release on this exit path
(the per-conversation marker is only ever touched inside run_claude, which
this path never reaches). -/
theorem c1_builtin_slot_leak :
    Step init_config leaked_builtin_config ∧
    leaked_builtin_config.claude_process_count = 1 ∧
    leaked_builtin_config.spawned = [] ∧
    leaked_builtin_config.running = [] ∧
    (∀ c, Reaches leaked_builtin_config c → 1 ≤ c.claude_process_count) := by
  refine ⟨?_, rfl, rfl, rfl, ?_⟩
  · exact Step.gate_builtin init_config (by decide)
  · intro c hc
    have hstart : LeakInv leaked_builtin_config := by
      refine ⟨⟨rfl, by decide, ?_, ?_, ?_⟩, le_refl 1⟩ <;>
        simp [leaked_builtin_config]
    have hinv : LeakInv c :=
      reaches_preserve (fun hx hs => leakInv_step hx hs) hc hstart
    obtain ⟨⟨h1, -, -, -, -⟩, h2⟩ := hinv
    omega

/-- C1 witness. -/
theorem c1_builtin_slot_leak_witness :
    1 ≤ leaked_builtin_config.claude_process_count :=
  c1_builtin_slot_leak.2.2.2.2 leaked_builtin_config (Reaches.refl _)

/-- C2: the ceiling is 5; in every reachable state at most 5 agent runs are in
flight; and when more than 5 requests for distinct conversation ids pass the
admission gate consecutively from the idle counter (no intervening release),
exactly 5 are admitted, every request beyond the fifth receives the busy
rejection (outcome false, the "Busy right now boss" reply) with the counter
unchanged by it, and the final counter is 5 — nothing is queued for the
rejected requests. -/
theorem c2_concurrency_ceiling :
    MAX_CLAUDE_PROCESSES = 5 ∧
    (∀ c, Reachable c → c.running.length ≤ MAX_CLAUDE_PROCESSES) ∧
    (∀ ids : List ThreadTs, ids.Nodup → MAX_CLAUDE_PROCESSES < ids.length →
      (admission_run 0 ids).2.countP (fun p => p.2) = MAX_CLAUDE_PROCESSES ∧
      (∀ p ∈ (admission_run 0 ids).2.drop MAX_CLAUDE_PROCESSES, p.2 = false) ∧
      (admission_run 0 ids).1 = MAX_CLAUDE_PROCESSES) := by
  refine ⟨rfl, ?_, ?_⟩
  · intro c hc
    obtain ⟨h1, h2, -, -, -⟩ := reachable_stateInv hc
    omega
  · intro ids hnd hlen
    refine ⟨?_, ?_, ?_⟩
    · rw [admission_run_countP ids 0]
      omega
    · intro p hp
      refine admission_run_drop ids 0 p ?_
      simpa using hp
    · rw [admission_run_final ids 0 (Nat.zero_le _)]
      omega

/-- C2 witness. -/
theorem c2_concurrency_ceiling_witness :
    init_config.running.length ≤ MAX_CLAUDE_PROCESSES ∧
    (admission_run 0 ["a".data, "b".data, "c".data, "d".data, "e".data,
      "f".data]).2.countP (fun p => p.2) = MAX_CLAUDE_PROCESSES :=
  ⟨c2_concurrency_ceiling.2.1 init_config (Reaches.refl _),
   (c2_concurrency_ceiling.2.2 _ (by decide) (by decide)).1⟩

/-- C3: in every reachable state no conversation has two runs in flight
(`running` is duplicate-free) and a conversation id is in the active set
exactly while it has a run in flight; and when n+1 requests for the same
conversation id execute their active-thread checks consecutively (no
intervening release), exactly one proceeds — the others receive the
already-running rejection — and the id is active afterwards. -/
theorem c3_single_flight :
    (∀ c, Reachable c → c.running.Nodup) ∧
    (∀ c, Reachable c → ∀ t, t ∈ c.active_threads ↔ t ∈ c.running) ∧
    (∀ (active : List ThreadTs) (count : Nat) (t : ThreadTs) (n : Nat), t ∉ active →
      (check_run active count t (n + 1)).2 = 1 ∧
      t ∈ (check_run active count t (n + 1)).1.1) := by
  refine ⟨?_, ?_, ?_⟩
  · intro c hc
    exact (reachable_stateInv hc).2.2.2.1
  · intro c hc
    exact (reachable_stateInv hc).2.2.2.2
  · intro active count t n h
    exact check_run_first active count t n h

/-- C3 witness. -/
theorem c3_single_flight_witness :
    init_config.running.Nodup ∧
    ("a".data ∈ init_config.active_threads ↔ "a".data ∈ init_config.running) ∧
    (check_run [] 7 "a".data 3).2 = 1 :=
  ⟨c3_single_flight.1 init_config (Reaches.refl _),
   c3_single_flight.2.1 init_config (Reaches.refl _) "a".data,
   (c3_single_flight.2.2 [] 7 "a".data 2 (List.not_mem_nil _)).1⟩
